import Mathlib

/-!
Verification development for the NEST / A2A integration layer of the
AI_Stock repository (src/nest/query_parser.py, bridge.py, registry.py,
message_formatter.py, adapter.py).

Conventions of the embedding:
* Python strings are modelled as Lean strings over their character lists;
  character classes of the regular expressions are taken at their ASCII
  meaning (the source only ever feeds ASCII patterns and the spec examples
  are ASCII).
* Python float quantities (prices, confidence scores, retry delays) are
  modelled as rationals.
* HTTP and network effects are modelled by explicit outcome values passed
  in as parameters; a function indexed by the attempt number stands for
  the sequence of transport-level outcomes a server produces.
* Exceptions are modelled with the Except monad; a region of code outside
  every try/except is code whose Except.error outcome propagates.
-/

/-! ## Character and string helpers (Python semantics, ASCII) -/

/-- Python whitespace for the purposes of str.strip and the regex class \s:
space, tab, newline, carriage return, vertical tab, form feed. -/
def pyIsSpace (c : Char) : Bool :=
  c = ' ' || c = '\t' || c = '\n' || c = '\r' || c = Char.ofNat 11 || c = Char.ofNat 12

/-- Python str.strip(): remove leading and trailing whitespace. -/
def pyStrip (cs : List Char) : List Char :=
  ((cs.dropWhile pyIsSpace).reverse.dropWhile pyIsSpace).reverse

/-- The regex word-character class \w: ASCII letters, digits and
underscore, together with the four case-fold extras that the capture
classes of this source can produce (U+0130, U+0131, U+017F, U+212A are
Unicode letters, hence word characters in Python).  Other non-ASCII
word characters are outside the ASCII scope of the embedding. -/
def isWordChar (c : Char) : Bool :=
  c.isAlpha || c.isDigit || c = '_' ||
  c = Char.ofNat 304 || c = Char.ofNat 305 || c = Char.ofNat 383 || c = Char.ofNat 8490

/-- The character class [A-Z] as compiled with re.IGNORECASE: CPython
case folding admits, besides the 52 ASCII letters, exactly the four
documented extras U+0130 (capital I with dot above), U+0131 (dotless
i), U+017F (long s) and U+212A (Kelvin sign). -/
def isAZIgnoreCase (c : Char) : Bool :=
  c.isAlpha || c = Char.ofNat 304 || c = Char.ofNat 305 ||
  c = Char.ofNat 383 || c = Char.ofNat 8490

/-- Python str.upper on the characters the embedding manipulates: ASCII
letters are upper-cased, U+0131 maps to I and U+017F to S, while U+0130
and U+212A - already uppercase letters - map to themselves, as does
every other character the capture classes can produce. -/
def pyToUpper (c : Char) : Char :=
  if c.isLower then Char.ofNat (c.toNat - 32)
  else if c = Char.ofNat 305 then 'I'
  else if c = Char.ofNat 383 then 'S'
  else c

/-- True when the position just after the consumed prefix is a word
boundary on its right side, i.e. the next character (if any) is not a
word character.  This is the \b test that follows a captured token. -/
def nextNonWord : List Char → Bool
  | [] => true
  | c :: _ => !(isWordChar c)

/-! ## Regex building blocks

Each sub-matcher consumes a prefix of the character list and returns the
rest (or the captured group).  The alternations in the source patterns
start with pairwise distinct first letters, and every greedy
sub-expression (\s+, \$?, the keyword literals) is followed by a
character it can never match, so the backtracking regex engine behaves
exactly like these deterministic matchers; the one genuinely
backtracking construct, the optional group of the question pattern, is
modelled by trying its alternatives in source order. -/

/-- Whether an input character matches one literal pattern character
(given in lowercase) under re.IGNORECASE: CPython folding also lets the
literals i, k and s match U+0130/U+0131, U+212A and U+017F. -/
def foldMatchCI (k c : Char) : Bool :=
  c.toLower = k ||
  (k = 'i' && (c = Char.ofNat 304 || c = Char.ofNat 305)) ||
  (k = 'k' && c = Char.ofNat 8490) ||
  (k = 's' && c = Char.ofNat 383)

/-- Match a literal keyword (given in lowercase) case-insensitively,
as the regexes compiled with re.IGNORECASE do, returning the rest. -/
def matchLitCI : List Char → List Char → Option (List Char)
  | [], cs => some cs
  | _ :: _, [] => none
  | k :: ks, c :: cs => if foldMatchCI k c then matchLitCI ks cs else none

/-- Match \s+ (one or more whitespace characters), greedily.  Every use
in the source is followed by a non-whitespace literal or class, so the
greedy full run is the only viable parse. -/
def matchWs1 : List Char → Option (List Char)
  | [] => none
  | c :: cs => if pyIsSpace c then some (cs.dropWhile pyIsSpace) else none

/-- Match the common tail \$?([A-Z]{1,5})\b of the ticker patterns
(the class is case-insensitive in patterns 2-4 because of re.IGNORECASE,
so it accepts isAZIgnoreCase characters) and return the captured group.  The greedy
quantifier with the trailing \b succeeds exactly when the maximal letter
run at this position has length 1..5 and is followed by a non-word
character or the end of the text. -/
def tickerRunAt (cs2 : List Char) : Option (List Char) :=
  if (cs2.takeWhile isAZIgnoreCase).length = 0 then none
  else if 5 < (cs2.takeWhile isAZIgnoreCase).length then none
  else if nextNonWord (cs2.drop (cs2.takeWhile isAZIgnoreCase).length) then
    some (cs2.takeWhile isAZIgnoreCase)
  else none

def tickerTokenAt (cs : List Char) : Option (List Char) :=
  tickerRunAt (match cs with
    | c :: rest => if c = '$' then rest else cs
    | [] => cs)

/-- Match \s+\$?([A-Z]{1,5})\b and return the capture. -/
def tickerSuffix (cs : List Char) : Option (List Char) :=
  (matchWs1 cs).bind tickerTokenAt

/-- Pattern 2 keyword alternation (?:analyze|check|look\s+at|review),
case-insensitive; the alternatives begin with distinct letters so at most
one can apply at a given position. -/
def analyzeKeyAt (cs : List Char) : Option (List Char) :=
  match matchLitCI "analyze".data cs with
  | some r => some r
  | none =>
  match matchLitCI "check".data cs with
  | some r => some r
  | none =>
  match ((matchLitCI "look".data cs).bind matchWs1).bind (matchLitCI "at".data) with
  | some r => some r
  | none => matchLitCI "review".data cs

/-- Pattern 2 of extract_ticker_from_query, tried at one position:
(?:analyze|check|look\s+at|review)\s+\$?([A-Z]{1,5})\b -/
def analyzePatternAt (cs : List Char) : Option (List Char) :=
  (analyzeKeyAt cs).bind tickerSuffix

/-- The optional group (?:\s+is|\s+about|\x27s)? of pattern 3 followed by
the ticker tail; the regex engine tries the alternatives and then the
empty option, in that order. -/
def questionOptTail (rest : List Char) : Option (List Char) :=
  match ((matchWs1 rest).bind (matchLitCI "is".data)).bind tickerSuffix with
  | some r => some r
  | none =>
  match ((matchWs1 rest).bind (matchLitCI "about".data)).bind tickerSuffix with
  | some r => some r
  | none =>
  match ((matchLitCI (Char.ofNat 39 :: 's' :: []) rest)).bind tickerSuffix with
  | some r => some r
  | none => tickerSuffix rest

/-- Pattern 3 of extract_ticker_from_query, tried at one position:
(?:what|how)(?:\s+is|\s+about|\x27s)?\s+\$?([A-Z]{1,5})\b -/
def questionPatternAt (cs : List Char) : Option (List Char) :=
  match matchLitCI "what".data cs with
  | some rest => questionOptTail rest
  | none =>
  match matchLitCI "how".data cs with
  | some rest => questionOptTail rest
  | none => none

/-- Pattern 4 keyword alternation
(?:tell\s+me\s+about|give\s+me\s+info\s+on|show\s+me|info\s+on);
alternatives begin with distinct letters. -/
def infoKeyAt (cs : List Char) : Option (List Char) :=
  match ((((matchLitCI "tell".data cs).bind matchWs1).bind
      (matchLitCI "me".data)).bind matchWs1).bind (matchLitCI "about".data) with
  | some r => some r
  | none =>
  match ((((((matchLitCI "give".data cs).bind matchWs1).bind
      (matchLitCI "me".data)).bind matchWs1).bind
      (matchLitCI "info".data)).bind matchWs1).bind (matchLitCI "on".data) with
  | some r => some r
  | none =>
  match ((matchLitCI "show".data cs).bind matchWs1).bind (matchLitCI "me".data) with
  | some r => some r
  | none => ((matchLitCI "info".data cs).bind matchWs1).bind (matchLitCI "on".data)

/-- Pattern 4 of extract_ticker_from_query, tried at one position. -/
def infoPatternAt (cs : List Char) : Option (List Char) :=
  (infoKeyAt cs).bind tickerSuffix

/-- re.search: try the position matcher at every start position, left to
right, and return the first capture. -/
def searchCapture (pAt : List Char → Option (List Char)) : List Char → Option (List Char)
  | [] => pAt []
  | c :: t =>
    match pAt (c :: t) with
    | some r => some r
    | none => searchCapture pAt t

/-- The scanning loop of findallTickerTokens, structurally recursive on
a character-count fuel; each step consumes at least one character, so
with fuel = length of the text the fuel never runs out. -/
def findallTickerTokensGo : Nat → Bool → List Char → List (List Char)
  | 0, _, _ => []
  | _ + 1, _, [] => []
  | fuel + 1, prevW, c :: rest =>
    if c = '$' then
      if prevW then
        let run := rest.takeWhile Char.isUpper
        if 1 ≤ run.length && run.length ≤ 5 && nextNonWord (rest.drop run.length) then
          run :: findallTickerTokensGo fuel true (rest.drop run.length)
        else findallTickerTokensGo fuel false rest
      else findallTickerTokensGo fuel false rest
    else if c.isUpper then
      if prevW then findallTickerTokensGo fuel true rest
      else
        let run := (c :: rest).takeWhile Char.isUpper
        if run.length ≤ 5 && nextNonWord ((c :: rest).drop run.length) then
          run :: findallTickerTokensGo fuel true ((c :: rest).drop run.length)
        else findallTickerTokensGo fuel true rest
    else findallTickerTokensGo fuel (isWordChar c) rest

/-- re.findall of pattern 5, \b\$?([A-Z]{1,5})\b (no IGNORECASE),
scanning left to right without overlap.  The boolean argument is whether
the character before the current position is a word character (false at
the start of the text); the leading \b holds exactly when the word-ness
of the previous and current characters differ. -/
def findallTickerTokens (prevW : Bool) (cs : List Char) : List (List Char) :=
  findallTickerTokensGo cs.length prevW cs

/-- The anchored core of pattern 1: the whole rest of the text must be
one 1-5 character uppercase run. -/
def directRunMatch (cs2 : List Char) : Option (List Char) :=
  if 1 ≤ cs2.length && cs2.length ≤ 5 && cs2.all Char.isUpper then some cs2 else none

/-- Pattern 1 of extract_ticker_from_query: re.match against
^\$?([A-Z]{1,5})$ (no IGNORECASE), anchored at both ends. -/
def directTickerMatch (cs : List Char) : Option (List Char) :=
  directRunMatch (match cs with
    | c :: rest => if c = '$' then rest else cs
    | [] => cs)

/-- The stop-word set of pattern 5 (common English words filtered out of
the generic fallback). -/
def common_words : List String :=
  ["I", "A", "AN", "THE", "IS", "ARE", "WAS", "WERE", "BE", "BEEN",
   "HAVE", "HAS", "HAD", "DO", "DOES", "DID", "WILL", "WOULD", "CAN",
   "COULD", "MAY", "MIGHT", "MUST", "SHALL", "SHOULD", "AM", "OR",
   "AND", "BUT", "IF", "SO", "AS", "AT", "BY", "FOR", "IN", "OF",
   "ON", "TO", "UP", "IT", "ME", "MY", "WE", "US", "YOU", "HE", "SHE",
   "HELLO", "HI", "THANKS", "THANK", "PLEASE", "YES", "NO", "OK", "OKAY"]

/-- is_valid_ticker from src/nest/query_parser.py: after stripping and
upper-casing, 1-5 characters matching ^[A-Z][A-Z0-9.]{0,4}$ and not
all digits once dots are removed. -/
def is_valid_ticker (ticker : String) : Bool :=
  if ticker = "" then false
  else
    let t := (pyStrip ticker.data).map pyToUpper
    if t.length < 1 || 5 < t.length then false
    else
      let okPattern := match t with
        | [] => false
        | c :: rest => c.isUpper && rest.all (fun d => d.isUpper || d.isDigit || d = '.')
      if !okPattern then false
      else
        let digits := t.filter (fun c => c != '.')
        if !digits.isEmpty && digits.all Char.isDigit then false
        else true

/-- The loop over the findall matches of pattern 5: upper-case each
match, skip stop words, return the first one that also passes
is_valid_ticker. -/
def pickFirstValidTicker : List (List Char) → Option String
  | [] => none
  | m :: ms =>
    let ticker := String.mk (m.map pyToUpper)
    if !(common_words.contains ticker) && is_valid_ticker ticker then some ticker
    else pickFirstValidTicker ms

/-- extract_ticker_from_query from src/nest/query_parser.py: strip the
query, then try the direct pattern, the analyze pattern, the question
pattern, the information pattern and finally the generic findall
fallback, returning the first captured token upper-cased. -/
def extract_ticker_from_query (query : String) : Option String :=
  if query = "" then none
  else
    match directTickerMatch (pyStrip query.data) with
    | some t => some (String.mk (t.map pyToUpper))
    | none =>
    match searchCapture analyzePatternAt (pyStrip query.data) with
    | some t => some (String.mk (t.map pyToUpper))
    | none =>
    match searchCapture questionPatternAt (pyStrip query.data) with
    | some t => some (String.mk (t.map pyToUpper))
    | none =>
    match searchCapture infoPatternAt (pyStrip query.data) with
    | some t => some (String.mk (t.map pyToUpper))
    | none => pickFirstValidTicker (findallTickerTokens false (pyStrip query.data))

/-- The result record of parse_query_intent. -/
structure QueryIntent where
  ticker : Option String
  intent : String
  valid : Bool
  error : Option String
deriving Repr, DecidableEq

/-- parse_query_intent from src/nest/query_parser.py. -/
def parse_query_intent (query : String) : QueryIntent :=
  if query = "" then
    { ticker := none, intent := "analyze", valid := false, error := some "Invalid query input" }
  else
    match extract_ticker_from_query query with
    | none =>
      { ticker := none, intent := "unknown", valid := false,
        error := some "No ticker symbol found in query" }
    | some t =>
      if !is_valid_ticker t then
        { ticker := some t, intent := "analyze", valid := false,
          error := some ("Invalid ticker symbol: " ++ t) }
      else
        { ticker := some t, intent := "analyze", valid := true, error := none }

/-- A single apostrophe, as used by the error texts of the source. -/
def apos : String := String.singleton (Char.ofNat 39)

/-- format_ticker_error from src/nest/query_parser.py. -/
def format_ticker_error (ticker : Option String) : String :=
  match ticker with
  | some t =>
    "❌ Invalid ticker symbol " ++ apos ++ t ++ apos ++
      ". Please provide a valid NASDAQ ticker symbol (1-5 letters)."
  | none =>
    "❌ No ticker symbol found in your query. " ++
      "Please include a valid NASDAQ ticker symbol (e.g., AAPL, TSLA, MSFT)."

/-! ## parse_agent_mention (src/nest/bridge.py)

The pattern is ^@([\w-]+)\s+(.+)$ applied with re.match to the stripped
message.  The character classes of the three parts are pairwise disjoint
where they meet, so the greedy quantifiers admit exactly one parse: the
mention token is the maximal run of word characters and hyphens after the
@, followed by at least one whitespace character, and the remainder (.+)
must be nonempty and contain no newline (the anchored $ matches only at
the end because stripping removed any trailing newline). -/

/-- The re.match of ^@([\w-]+)\s+(.+)$ against an already stripped text,
returning the two captured groups. -/
def agentMentionMatch (cs : List Char) : Option (List Char × List Char) :=
  match cs with
  | '@' :: rest =>
    let run := rest.takeWhile (fun c => isWordChar c || c = '-')
    if run.length = 0 then none
    else
      match matchWs1 (rest.drop run.length) with
      | none => none
      | some rem =>
        if !rem.isEmpty && rem.all (fun c => c != '\n') then some (run, rem) else none
  | _ => none

/-- parse_agent_mention from src/nest/bridge.py: on a match return the
mention target and the remainder of the stripped message, otherwise
return no target together with the original message. -/
def parse_agent_mention (message : String) : Option String × String :=
  match agentMentionMatch (pyStrip message.data) with
  | some (t, rem) => (some (String.mk t), String.mk rem)
  | none => (none, message)

/-! ## JSON values and Python dicts -/

/-- Decoded JSON values, the shape of every wire message body. -/
inductive JVal where
  | null
  | bool (b : Bool)
  | num (q : ℚ)
  | str (s : String)
  | arr (xs : List JVal)
  | obj (kvs : List (String × JVal))

/-- A Python dict with string keys holding JSON values, in insertion
order. -/
abbrev Dict := List (String × JVal)

/-- Python d[k] lookup, as an optional value. -/
def dictGet? (d : Dict) (k : String) : Option JVal :=
  (d.find? (fun kv => kv.1 == k)).map (fun kv => kv.2)

/-- Python `k in d`. -/
def dictContains (d : Dict) (k : String) : Bool :=
  (dictGet? d k).isSome

/-- Python d[k] = v: replace the value in place when the key exists,
append at the end otherwise. -/
def dictSet (d : Dict) (k : String) (v : JVal) : Dict :=
  if dictContains d k then d.map (fun kv => if kv.1 == k then (k, v) else kv)
  else d ++ [(k, v)]

/-- Python d.get(k, default). -/
def jgetD (d : Dict) (k : String) (dflt : JVal) : JVal :=
  (dictGet? d k).getD dflt

/-- Python truthiness of a decoded JSON value. -/
def truthy : JVal → Bool
  | .null => false
  | .bool b => b
  | .num q => q != 0
  | .str s => !s.isEmpty
  | .arr xs => !xs.isEmpty
  | .obj kvs => !kvs.isEmpty

/-- Python str() of a decoded JSON value as interpolated by the
f-strings of the source.  The rendering of container values is
abstracted; no claim depends on those digits or brackets. -/
def pyStrOfJVal : JVal → String
  | .null => "None"
  | .bool true => "True"
  | .bool false => "False"
  | .num q => toString q
  | .str s => s
  | .arr _ => "[...]"
  | .obj _ => "\x7b...\x7d"

/-- Python str.upper(), ASCII. -/
def pyUpperStr (s : String) : String :=
  String.mk (s.data.map pyToUpper)

/-- Fixed-point rendering of a rational with the given number of
decimals, standing in for the float format specifiers :.2f, :.1f, :.0f.
CPython rounding at the last digit is not reproduced; no claim depends
on these digits. -/
def fmtFixed (prec : Nat) (q : ℚ) : String :=
  let scaled : Int := (q * (10 : ℚ) ^ prec).floor
  let n : Nat := scaled.natAbs
  let ip := n / 10 ^ prec
  let fp := n % 10 ^ prec
  let fpStr := toString fp
  let pad := String.mk (List.replicate (prec - fpStr.length) '0')
  (if scaled < 0 then "-" else "") ++ toString ip ++
    (if prec = 0 then "" else "." ++ pad ++ fpStr)

/-! ## The analysis data model (external collaborator)

src/models/analysis.py is not among the sources; the records below carry
exactly the attributes the formatter and the bridge read. -/

/-- Modelled from the spec: the recommendation part of an analysis
result (recommendation enum value, confidence, key factors, risk
assessment, reasoning) as consumed by the message formatter. -/
structure InvestmentRecommendation where
  recommendation_value : String
  confidence_score : ℚ
  key_factors : List String
  risk_assessment : String
  reasoning : String

/-- Modelled from the spec: market data carrying the current price and
the percentage change returned by get_price_change_percentage(). -/
structure MarketData where
  current_price : ℚ
  price_change_percentage : ℚ

/-- Modelled from the spec: the StockAnalysis record returned by the
external perform_complete_analysis collaborator, with the optional
market data and recommendation sections the formatter renders. -/
structure StockAnalysis where
  ticker : String
  company_name : String
  market_data : Option MarketData
  recommendation : Option InvestmentRecommendation
  summary : String

/-! ## message_formatter.py -/

/-- format_analysis_response from src/nest/message_formatter.py:
renders the multi-line analysis text and wraps it in the A2A response
dict, adding parent_message_id only when truthy. -/
def format_analysis_response (analysis : StockAnalysis) (conversation_id : String)
    (parent_message_id : Option String) (agent_id : String) : Dict :=
  let parts0 := ["[" ++ agent_id ++ "] " ++ analysis.company_name ++
      " (" ++ analysis.ticker ++ ") Analysis:", ""]
  let parts1 := parts0 ++ (match analysis.market_data with
    | some md =>
      let pc := md.price_change_percentage
      let sign := if 0 ≤ pc then "+" else ""
      ["Current Price: $" ++ fmtFixed 2 md.current_price ++
        " (" ++ sign ++ fmtFixed 1 pc ++ "%)"]
    | none => [])
  let parts2 := parts1 ++ (match analysis.recommendation with
    | some rec =>
      ["AI Recommendation: " ++ pyUpperStr rec.recommendation_value ++
        " (Confidence: " ++ fmtFixed 0 rec.confidence_score ++ "%)", ""] ++
      (if rec.key_factors.isEmpty then []
       else "Key Factors:" :: rec.key_factors.map (fun f => "• " ++ f)) ++
      ["", "Risk Assessment: " ++ rec.risk_assessment, "",
       "Reasoning: " ++ rec.reasoning]
    | none => [])
  let parts3 := parts2 ++
    (if analysis.summary = "" then [] else ["", "Summary: " ++ analysis.summary])
  let response : Dict :=
    [("role", .str "agent"),
     ("content", .obj [("text", .str (String.intercalate "\n" parts3)),
                       ("type", .str "text")]),
     ("conversation_id", .str conversation_id)]
  match parent_message_id with
  | some pid => if pid = "" then response else response ++ [("parent_message_id", .str pid)]
  | none => response

/-- format_error_response from src/nest/message_formatter.py.  The
optional error code and suggestion list are rendered only when truthy;
an absent suggestion list is the empty list. -/
def format_error_response (error_message : String) (conversation_id : String)
    (parent_message_id : Option String) (agent_id : String)
    (error_code : Option String) (suggestions : List String) : Dict :=
  let parts0 := ["[" ++ agent_id ++ "] ❌ Error: " ++ error_message]
  let parts1 := parts0 ++ (match error_code with
    | some c => if c = "" then [] else ["Error Code: " ++ c]
    | none => [])
  let parts2 := parts1 ++
    (if suggestions.isEmpty then []
     else ["", "Suggestions:"] ++ suggestions.map (fun s => "• " ++ s))
  let response : Dict :=
    [("role", .str "agent"),
     ("content", .obj [("text", .str (String.intercalate "\n" parts2)),
                       ("type", .str "text")]),
     ("conversation_id", .str conversation_id)]
  match parent_message_id with
  | some pid => if pid = "" then response else response ++ [("parent_message_id", .str pid)]
  | none => response

/-- The record parse_a2a_message fills. -/
structure ParsedA2AMessage where
  query : JVal
  conversation_id : JVal
  message_id : JVal
  from_agent_id : JVal
  metadata : JVal

/-- parse_a2a_message from src/nest/message_formatter.py: tolerant decode
of an inbound message.  The one failure mode of the source is kept: when
a metadata field is present but is not a dict, metadata.get raises
AttributeError. -/
def parse_a2a_message (message : Dict) : Except String ParsedA2AMessage :=
  let query : JVal := match dictGet? message "content" with
    | some (.obj kvs) => jgetD kvs "text" (.str "")
    | some (.str s) => .str s
    | _ => .str ""
  let conversation_id := jgetD message "conversation_id" (.str "")
  let m1 := jgetD message "message_id" .null
  let message_id := if truthy m1 then m1 else jgetD message "id" .null
  match dictGet? message "metadata" with
  | some (.obj kvs) =>
    .ok { query := query, conversation_id := conversation_id, message_id := message_id,
          from_agent_id := jgetD kvs "from_agent_id" .null, metadata := .obj kvs }
  | some _ => .error "AttributeError: get"
  | none =>
    .ok { query := query, conversation_id := conversation_id, message_id := message_id,
          from_agent_id := .null, metadata := .obj [] }

/-! ## registry.py -/

/-- The transport-level outcome of one HTTP attempt against the
registry: a response with a status code and decoded JSON body, an
aiohttp ClientError, an asyncio timeout, or any other exception raised
while making the request. -/
inductive RegResp where
  | http (status : Nat) (body : JVal)
  | clientError
  | timeoutError
  | otherException

/-- What one call of _make_request produces: the optional decoded
response plus the observable effort, i.e. how many HTTP attempts were
made and which backoff delays (in seconds) were slept between them. -/
structure ReqTrace where
  result : Option JVal
  attempts : Nat
  delays : List ℚ

/-- _make_request plus _retry_request from src/nest/registry.py, as a
function of the outcome of each attempt (indexed by retry_count).
200/201 return the body; 5xx retries while retry_count < max_retries;
other statuses return None; ClientError and TimeoutError retry the same
way; any other exception returns None.  The backoff before the attempt
with retry_count = k+1 is retry_delay * 2^k. -/
def make_request (responses : Nat → RegResp) (max_retries : Nat) (retry_delay : ℚ)
    (retry_count : Nat) : ReqTrace :=
  match responses retry_count with
  | .http status body =>
    if status = 200 || status = 201 then
      { result := some body, attempts := 1, delays := [] }
    else if h : 500 ≤ status ∧ retry_count < max_retries then
      let t := make_request responses max_retries retry_delay (retry_count + 1)
      { result := t.result, attempts := t.attempts + 1,
        delays := (retry_delay * 2 ^ retry_count) :: t.delays }
    else { result := none, attempts := 1, delays := [] }
  | .clientError =>
    if h : retry_count < max_retries then
      let t := make_request responses max_retries retry_delay (retry_count + 1)
      { result := t.result, attempts := t.attempts + 1,
        delays := (retry_delay * 2 ^ retry_count) :: t.delays }
    else { result := none, attempts := 1, delays := [] }
  | .timeoutError =>
    if h : retry_count < max_retries then
      let t := make_request responses max_retries retry_delay (retry_count + 1)
      { result := t.result, attempts := t.attempts + 1,
        delays := (retry_delay * 2 ^ retry_count) :: t.delays }
    else { result := none, attempts := 1, delays := [] }
  | .otherException => { result := none, attempts := 1, delays := [] }
termination_by max_retries - retry_count
decreasing_by all_goals omega

/-- register_agent from src/nest/registry.py, as a function of the
transport outcomes and of the _registered flag before the call; the pair
holds the returned boolean and the flag after the call.  The
audit-logging collaborator (src/services/logging_service.py, not among
the sources) is modelled from the spec as fire-and-forget event
reporting that always returns normally, so the final except branch of
the source is unreachable here. -/
def register_agent (responses : Nat → RegResp) (max_retries : Nat) (retry_delay : ℚ)
    (registered_before : Bool) : Bool × Bool :=
  match (make_request responses max_retries retry_delay 0).result with
  | some body => if truthy body then (true, true) else (false, registered_before)
  | none => (false, registered_before)

/-- is_registered from src/nest/registry.py: the _registered flag. -/
def is_registered (registered : Bool) : Bool := registered

/-- deregister from src/nest/registry.py: a no-op returning True when
never registered; otherwise DELETE, and the branch condition of the
source is `response or response is None`, so only a truthy-or-None
outcome clears the flag and returns True. -/
def deregister (responses : Nat → RegResp) (max_retries : Nat) (retry_delay : ℚ)
    (registered_before : Bool) : Bool × Bool :=
  if registered_before = false then (true, registered_before)
  else
    match (make_request responses max_retries retry_delay 0).result with
    | none => (true, false)
    | some b => if truthy b then (true, false) else (false, registered_before)

/-! ## bridge.py: send_to_agent and process_stock_query

The environment below fixes the outcome of every external effect of one
call: whether a registry client was configured, what lookup_agent
returned, how the POST to the target agent went, and what the analysis
collaborator produced.  The audit-logging collaborator
(src/services/logging_service.py, not among the sources) is modelled
from the spec as fire-and-forget event reporting that always returns
normally. -/

/-- Modelled from the spec: logging_service.log_nest_message, an audit
event emission that always returns normally. -/
def log_nest_message : Except String Unit := Except.ok ()

/-- The outcome of the POST of a forwarded message to the target
a2a endpoint of the target agent: HTTP 200 with a decoded JSON body (a wire-format
object, or null), a non-200 status with its error text, a timeout, an
aiohttp ClientError, or some other exception (which the outer handler of
send_to_agent turns into an internal-error dict). -/
inductive PostOutcome where
  | ok (body : Option Dict)
  | httpError (status : Nat) (text : String)
  | timeout
  | connectionError (msg : String)
  | raised (e : String)

/-- The external effects of one bridge call. -/
structure BridgeEnv where
  registry_configured : Bool
  lookup_result : Option String
  post_outcome : PostOutcome
  fresh_conversation_id : String
  analysis_outcome : Except String StockAnalysis

/-- send_to_agent from src/nest/bridge.py.  Its whole body sits inside
try/except Exception, and every branch of that body returns a dict (or
the decoded remote body), so the function is total: it never raises. -/
def send_to_agent (env : BridgeEnv) (target_agent_id : String)
    (conversation_id : Option String) (message_timeout : Nat) : Option Dict :=
  if !env.registry_configured then
    some [("error", .str "Registry not configured"),
          ("message", .str "Cannot send messages to other agents without registry configuration")]
  else
    match env.lookup_result with
    | none =>
      some [("error", .str "Agent not found"),
            ("message", .str ("Agent " ++ apos ++ target_agent_id ++ apos ++
              " is not registered in the NANDA network"))]
    | some _target_url =>
      let _conv := conversation_id.getD env.fresh_conversation_id
      match env.post_outcome with
      | .ok body => body
      | .httpError status text =>
        some [("error", .str ("HTTP " ++ toString status)),
              ("message", .str ("Agent returned error: " ++ text))]
      | .timeout =>
        some [("error", .str "Timeout"),
              ("message", .str ("Agent " ++ apos ++ target_agent_id ++ apos ++
                " did not respond within " ++ toString message_timeout ++ " seconds"))]
      | .connectionError m =>
        some [("error", .str "Connection error"),
              ("message", .str ("Failed to connect to agent " ++ apos ++ target_agent_id ++
                apos ++ ": " ++ m))]
      | .raised e =>
        some [("error", .str "Internal error"),
              ("message", .str ("Unexpected error: " ++ e))]

/-- The fallback error dict for a missing forwarded response. -/
def noResponseError (target_agent_id conversation_id : String)
    (parent_message_id : Option String) (agent_id : String) : Dict :=
  format_error_response
    ("No response received from agent " ++ apos ++ target_agent_id ++ apos)
    conversation_id parent_message_id agent_id (some "NO_RESPONSE") []

/-- The no-mention pipeline of process_stock_query: the try block
starting at line 180 of the source together with its top-level
except-Exception handler, which turns any escaped exception into an
INTERNAL_ERROR response. -/
def process_local_query (env : BridgeEnv) (agent_id : String) (query : String)
    (conversation_id : String) (parent_message_id : Option String) :
    Except String Dict :=
  tryCatch
    (do
      let query_intent := parse_query_intent query
      if query_intent.valid = false then
        Except.ok (format_error_response (format_ticker_error query_intent.ticker)
          conversation_id parent_message_id agent_id (some "INVALID_QUERY")
          ["Provide a valid NASDAQ ticker symbol (e.g., AAPL, TSLA, MSFT)",
           "Use format: " ++ apos ++ "analyze TICKER" ++ apos ++ " or " ++ apos ++
             "what about TICKER?" ++ apos])
      else
        match query_intent.ticker with
        | none => Except.error "KeyError: ticker"
        | some ticker =>
          match env.analysis_outcome with
          | Except.error analysis_error =>
            Except.ok (format_error_response
              ("Analysis failed for " ++ ticker ++ ": " ++ analysis_error)
              conversation_id parent_message_id agent_id (some "ANALYSIS_ERROR")
              ["Verify the ticker symbol is valid", "Try again later",
               "Contact support if the issue persists"])
          | Except.ok analysis =>
            match analysis.recommendation with
            | none =>
              Except.ok (format_error_response
                ("Unable to complete analysis for " ++ ticker ++ ". " ++ analysis.summary)
                conversation_id parent_message_id agent_id (some "ANALYSIS_FAILED")
                ["Verify the ticker symbol is correct", "Try again in a few moments",
                 "Check if the stock is actively traded"])
            | some _rec =>
              Except.ok (format_analysis_response analysis conversation_id
                parent_message_id agent_id))
    (fun e =>
      Except.ok (format_error_response ("Unexpected error: " ++ e) conversation_id
        parent_message_id agent_id (some "INTERNAL_ERROR")
        ["Try again later", "Contact support if the issue persists"]))

/-- process_stock_query from src/nest/bridge.py.  The mention-forwarding
branch (lines 132-178 of the source) executes before the try block that
starts at line 180, so an exception raised inside it propagates: reading
response["message"] raises KeyError when the forwarded response carries
an "error" key but no "message" key, and response["content"].get raises
AttributeError when the forwarded "content" value is not a dict.  The
no-mention pipeline runs inside try/except Exception and always returns
a formatted dict. -/
def process_stock_query (env : BridgeEnv) (agent_id : String) (message_timeout : Nat)
    (query : String) (conversation_id : String) (parent_message_id : Option String) :
    Except String Dict := do
  let _ ← log_nest_message
  let (target?, remaining_query) := parse_agent_mention query
  match target? with
  | some target_agent_id =>
    let _remaining := remaining_query
    let response := send_to_agent env target_agent_id (some conversation_id) message_timeout
    match response with
    | some resp =>
      if truthy (.obj resp) && dictContains resp "error" then do
        let msgv ← match dictGet? resp "message" with
          | some v => Except.ok v
          | none => Except.error "KeyError: message"
        Except.ok (format_error_response (pyStrOfJVal msgv) conversation_id
          parent_message_id agent_id (some "AGENT_COMMUNICATION_ERROR")
          ["Verify that agent " ++ apos ++ target_agent_id ++ apos ++
            " is registered and available",
           "Try again later", "Contact the agent administrator"])
      else if truthy (.obj resp) && dictContains resp "content" then do
        match dictGet? resp "content" with
        | some (.obj ckvs) =>
          let original_text := pyStrOfJVal (jgetD ckvs "text" (.str ""))
          let newText := "[" ++ agent_id ++ "] Forwarded to @" ++ target_agent_id ++
            ":\n\n" ++ original_text
          let resp2 := dictSet resp "content" (.obj (dictSet ckvs "text" (.str newText)))
          if truthy (.obj resp2) then Except.ok resp2
          else Except.ok (noResponseError target_agent_id conversation_id
            parent_message_id agent_id)
        | _ => Except.error "AttributeError: get"
      else
        if truthy (.obj resp) then Except.ok resp
        else Except.ok (noResponseError target_agent_id conversation_id
          parent_message_id agent_id)
    | none =>
      Except.ok (noResponseError target_agent_id conversation_id parent_message_id agent_id)
  | none =>
    process_local_query env agent_id query conversation_id parent_message_id

/-! ## adapter.py: the heartbeat loop and stop_async

The heartbeat loop of _start_heartbeat and the stop methods interact
through the _is_running flag only: start discards the task handle
returned by asyncio.create_task, and stop/stop_async merely set
_is_running to False, so the asyncio sleep of an in-progress iteration
is never cancelled.  The loop is modelled as a small-step machine with
one step per scheduling event; the 30 second sleep takes 30 unit
steps. -/

/-- The control position of the heartbeat loop task. -/
inductive HeartbeatPc where
  | top
  | sleeping (n : Nat)
  | done
deriving DecidableEq, Repr

/-- The adapter state the heartbeat loop touches: the _is_running flag,
the loop position, and how many update_status calls were made. -/
structure AdapterState where
  is_running : Bool
  pc : HeartbeatPc
  update_status_calls : Nat
deriving DecidableEq, Repr

/-- One scheduler step of the _start_heartbeat loop: the while condition
reads _is_running at the top of each iteration; a body step performs the
update_status call of that iteration and enters the 30 second sleep,
which counts down one unit per step. -/
def heartbeat_step (s : AdapterState) : AdapterState :=
  match s.pc with
  | .top =>
    if s.is_running then
      { s with pc := .sleeping 30, update_status_calls := s.update_status_calls + 1 }
    else { s with pc := .done }
  | .sleeping (n + 1) => { s with pc := .sleeping n }
  | .sleeping 0 => { s with pc := .top }
  | .done => s

/-- Iterate the heartbeat scheduler. -/
def heartbeat_run : Nat → AdapterState → AdapterState
  | 0, s => s
  | n + 1, s => heartbeat_run n (heartbeat_step s)

/-- The effect of stop_async on the state the heartbeat loop observes:
it flips _is_running to false and nothing else — the task handle was
discarded by start, no cancel is issued, and an in-progress sleep keeps
its remaining time. -/
def stop_async_effect (s : AdapterState) : AdapterState :=
  { s with is_running := false }

/-! ## Predicates used by the capture lemmas -/

/-- What a capture of the common \$?([A-Z]{1,5})\b tail looks like:
1-5 characters of the IGNORECASE class. -/
def isLetterRun15 (r : List Char) : Prop :=
  r ≠ [] ∧ r.length ≤ 5 ∧ ∀ c ∈ r, isAZIgnoreCase c = true

/-- The shape of every value extract_ticker_from_query returns: 1-5
characters, each an ASCII uppercase letter or one of the two uppercase
fold extras U+0130 and U+212A that survive str.upper unchanged. -/
def tickerShape (l : List Char) : Prop :=
  l ≠ [] ∧ l.length ≤ 5 ∧
    ∀ c ∈ l, c.isUpper = true ∨ c = Char.ofNat 304 ∨ c = Char.ofNat 8490

/-- What a match of the findall pattern 5 looks like: a 1-5 character
uppercase run. -/
def isUpperRun15 (r : List Char) : Prop :=
  r ≠ [] ∧ r.length ≤ 5 ∧ ∀ c ∈ r, c.isUpper = true

/-- A transport outcome that is not a 200/201 response. -/
def noSuccess (r : RegResp) : Prop :=
  ∀ s b, r = RegResp.http s b → ¬(s = 200 ∨ s = 201)

/-! ## Helper lemmas: ASCII characters -/

theorem char_toNat_ofNat (n : Nat) (h : n.isValidChar) : (Char.ofNat n).toNat = n := by
  simp [Char.ofNat, h, Char.ofNatAux, Char.toNat, UInt32.toNat, BitVec.toNat_ofNatLt]

theorem char_isUpper_iff (c : Char) : c.isUpper = true ↔ 65 ≤ c.toNat ∧ c.toNat ≤ 90 := by
  simp [Char.isUpper, UInt32.le_def, BitVec.le_def, Char.toNat, UInt32.toNat]

theorem char_isLower_iff (c : Char) : c.isLower = true ↔ 97 ≤ c.toNat ∧ c.toNat ≤ 122 := by
  simp [Char.isLower, UInt32.le_def, BitVec.le_def, Char.toNat, UInt32.toNat]

theorem char_isDigit_iff (c : Char) : c.isDigit = true ↔ 48 ≤ c.toNat ∧ c.toNat ≤ 57 := by
  simp [Char.isDigit, UInt32.le_def, BitVec.le_def, Char.toNat, UInt32.toNat]

theorem pyToUpper_isUpper_of_alpha (c : Char) (h : c.isAlpha = true) :
    (pyToUpper c).isUpper = true := by
  rw [Char.isAlpha, Bool.or_eq_true, char_isUpper_iff, char_isLower_iff] at h
  unfold pyToUpper
  split
  · rename_i hl
    rw [char_isLower_iff] at hl
    rw [char_isUpper_iff, char_toNat_ofNat _ (by left; omega)]
    omega
  · rename_i hl
    have hnl : ¬(97 ≤ c.toNat ∧ c.toNat ≤ 122) := fun hb => hl ((char_isLower_iff c).mpr hb)
    split
    · decide
    · split
      · decide
      · rw [char_isUpper_iff]
        omega

theorem pyToUpper_of_isUpper (c : Char) (h : c.isUpper = true) : pyToUpper c = c := by
  rw [char_isUpper_iff] at h
  unfold pyToUpper
  split
  · rename_i hl
    rw [char_isLower_iff] at hl
    exfalso
    omega
  · split
    · rename_i h305
      subst h305
      have hv : (Char.ofNat 305).toNat = 305 := by decide
      exfalso
      omega
    · split
      · rename_i h383
        subst h383
        have hv : (Char.ofNat 383).toNat = 383 := by decide
        exfalso
        omega
      · rfl

theorem isUpper_isAlpha (c : Char) (h : c.isUpper = true) : c.isAlpha = true := by
  simp [Char.isAlpha, h]

theorem isUpper_isAZci (c : Char) (h : c.isUpper = true) : isAZIgnoreCase c = true := by
  simp [isAZIgnoreCase, isUpper_isAlpha c h]

theorem pyToUpper_shape (c : Char) (h : isAZIgnoreCase c = true) :
    (pyToUpper c).isUpper = true ∨ pyToUpper c = Char.ofNat 304 ∨ pyToUpper c = Char.ofNat 8490 := by
  simp only [isAZIgnoreCase, Bool.or_eq_true, decide_eq_true_eq] at h
  rcases h with (((hA | h304) | h305) | h383) | h8490
  · exact Or.inl (pyToUpper_isUpper_of_alpha c hA)
  · subst h304
    right
    left
    decide
  · subst h305
    left
    decide
  · subst h383
    left
    decide
  · subst h8490
    right
    right
    decide

theorem pyToUpper_id_of_shape (c : Char)
    (h : c.isUpper = true ∨ c = Char.ofNat 304 ∨ c = Char.ofNat 8490) : pyToUpper c = c := by
  rcases h with h | rfl | rfl
  · exact pyToUpper_of_isUpper c h
  · decide
  · decide

theorem isUpper_not_isDigit (c : Char) (h : c.isUpper = true) : c.isDigit = false := by
  rw [char_isUpper_iff] at h
  rcases hd : c.isDigit with _ | _
  · rfl
  · rw [char_isDigit_iff] at hd
    omega

theorem pyIsSpace_isUpper_false (c : Char) (h : pyIsSpace c = true) : c.isUpper = false := by
  simp only [pyIsSpace, Bool.or_eq_true, decide_eq_true_eq] at h
  rcases h with ((((h | h) | h) | h) | h) | h <;> subst h <;> decide

theorem isUpper_not_space (c : Char) (h : c.isUpper = true) : pyIsSpace c = false := by
  rcases hs : pyIsSpace c with _ | _
  · rfl
  · rw [pyIsSpace_isUpper_false c hs] at h
    cases h

theorem isUpper_ne_dollar (c : Char) (h : c.isUpper = true) : c ≠ '$' := by
  intro he
  subst he
  cases h

theorem isUpper_ne_dot (c : Char) (h : c.isUpper = true) : (c != '.') = true := by
  simp only [bne_iff_ne, ne_eq]
  intro he
  subst he
  exact absurd h (by decide)

/-! ## Helper lemmas: stripping and runs -/

theorem dropWhile_eq_self_of_all (p : Char → Bool) (l : List Char)
    (h : ∀ c ∈ l, p c = false) : l.dropWhile p = l := by
  cases l with
  | nil => rfl
  | cons c t =>
    rw [List.dropWhile_cons, if_neg]
    simp [h c (by simp)]

theorem pyStrip_eq_self (t : List Char) (h : ∀ c ∈ t, pyIsSpace c = false) :
    pyStrip t = t := by
  unfold pyStrip
  rw [dropWhile_eq_self_of_all _ _ h, dropWhile_eq_self_of_all, List.reverse_reverse]
  intro c hc
  exact h c (List.mem_reverse.mp hc)

theorem map_pyToUpper_id_of_shape (t : List Char)
    (h : ∀ c ∈ t, c.isUpper = true ∨ c = Char.ofNat 304 ∨ c = Char.ofNat 8490) :
    t.map pyToUpper = t := by
  induction t with
  | nil => rfl
  | cons c rest ih =>
    simp only [List.map_cons, pyToUpper_id_of_shape c (h c (by simp)), List.cons.injEq, true_and]
    exact ih (fun d hd => h d (by simp [hd]))

/-- The shape of every 1-5 letter uppercase token: it passes
is_valid_ticker. -/
theorem upper_run_is_valid_ticker (t : List Char) (hne : t ≠ [])
    (hlen : t.length ≤ 5) (hup : ∀ c ∈ t, c.isUpper = true) :
    is_valid_ticker (String.mk t) = true := by
  obtain ⟨c, rest, rfl⟩ : ∃ c rest, t = c :: rest := by
    cases t with
    | nil => exact absurd rfl hne
    | cons c r => exact ⟨c, r, rfl⟩
  have hdata : (String.mk (c :: rest)).data = c :: rest := rfl
  have hstrip : pyStrip (c :: rest) = c :: rest :=
    pyStrip_eq_self _ (fun d hd => isUpper_not_space d (hup d hd))
  have hmap : (c :: rest).map pyToUpper = c :: rest :=
    map_pyToUpper_id_of_shape _ (fun d hd => Or.inl (hup d hd))
  have hcup : c.isUpper = true := hup c (by simp)
  unfold is_valid_ticker
  rw [if_neg (fun he => hne (String.ext_iff.mp he))]
  simp only [hdata, hstrip, hmap]
  rw [if_neg (by simp at hlen ⊢; omega)]
  have hallOr : rest.all (fun d => d.isUpper || d.isDigit || d = '.') = true := by
    rw [List.all_eq_true]
    intro d hd
    simp [hup d (by simp [hd])]
  rw [if_neg (by simp [hcup, hallOr])]
  have hfilter : (c :: rest).filter (fun x => x != '.') = c :: rest := by
    rw [List.filter_eq_self]
    intro a ha
    exact isUpper_ne_dot a (hup a ha)
  simp only [hfilter]
  rw [if_neg]
  simp only [Bool.and_eq_true, List.isEmpty_cons, List.all_cons, Bool.not_eq_true']
  intro hcon
  rcases hcon with ⟨-, hdig, -⟩
  rw [isUpper_not_isDigit c hcup] at hdig
  cases hdig

/-- A 1-5 character token of ticker shape that contains a character that
is not ASCII uppercase (hence U+0130 or U+212A, unchanged by str.upper)
fails is_valid_ticker: the pattern ^[A-Z][A-Z0-9.]{0,4}$ is compiled
without IGNORECASE and rejects the non-ASCII character. -/
theorem shape_nonupper_not_valid (t : List Char) (hne : t ≠ [])
    (hlen : t.length ≤ 5)
    (hcls : ∀ c ∈ t, c.isUpper = true ∨ c = Char.ofNat 304 ∨ c = Char.ofNat 8490)
    (hnup : ¬(∀ c ∈ t, c.isUpper = true)) :
    is_valid_ticker (String.mk t) = false := by
  obtain ⟨c, rest, rfl⟩ : ∃ c rest, t = c :: rest := by
    cases t with
    | nil => exact absurd rfl hne
    | cons c r => exact ⟨c, r, rfl⟩
  have hdata : (String.mk (c :: rest)).data = c :: rest := rfl
  have hstrip : pyStrip (c :: rest) = c :: rest := by
    apply pyStrip_eq_self
    intro d hd
    rcases hcls d hd with h | h | h
    · exact isUpper_not_space d h
    · subst h
      decide
    · subst h
      decide
  have hmap : (c :: rest).map pyToUpper = c :: rest := map_pyToUpper_id_of_shape _ hcls
  push_neg at hnup
  obtain ⟨c0, hc0m, hc0⟩ := hnup
  have hc0x : c0 = Char.ofNat 304 ∨ c0 = Char.ofNat 8490 := by
    rcases hcls c0 hc0m with h | h | h
    · exact absurd h hc0
    · exact Or.inl h
    · exact Or.inr h
  unfold is_valid_ticker
  rw [if_neg (fun he => hne (String.ext_iff.mp he))]
  simp only [hdata, hstrip, hmap]
  rw [if_neg (by simp at hlen ⊢; omega)]
  rcases List.mem_cons.mp hc0m with heq | hcrest
  · subst heq
    have hcfalse : c0.isUpper = false := by
      rcases hc0x with rfl | rfl <;> decide
    rw [if_pos (by simp [hcfalse])]
  · have hall : rest.all (fun d => d.isUpper || d.isDigit || d = '.') = false := by
      rcases hres : rest.all (fun d => d.isUpper || d.isDigit || d = '.') with _ | _
      · rfl
      · have h2 := List.all_eq_true.mp hres c0 hcrest
        rcases hc0x with rfl | rfl <;> revert h2 <;> decide
    rw [if_pos (by simp [hall])]

/-! ## Helper lemmas: every captured token is a 1-5 letter run -/

theorem tickerRunAt_spec (cs2 r : List Char) (h : tickerRunAt cs2 = some r) :
    isLetterRun15 r := by
  unfold tickerRunAt at h
  split at h
  · exact absurd h (by simp)
  · split at h
    · exact absurd h (by simp)
    · split at h
      · rename_i hlen0 hlen5 _
        obtain rfl : _ = r := Option.some.inj h
        refine ⟨?_, by omega, ?_⟩
        · intro hnil
          rw [hnil] at hlen0
          exact hlen0 rfl
        · intro c hc
          exact List.mem_takeWhile_imp hc
      · exact absurd h (by simp)

theorem tickerTokenAt_spec (cs r : List Char) (h : tickerTokenAt cs = some r) :
    isLetterRun15 r := by
  unfold tickerTokenAt at h
  exact tickerRunAt_spec _ r h

theorem tickerSuffix_spec (cs r : List Char) (h : tickerSuffix cs = some r) :
    isLetterRun15 r := by
  unfold tickerSuffix at h
  rcases Option.bind_eq_some.mp h with ⟨x, -, hx⟩
  exact tickerTokenAt_spec x r hx

theorem bind_tickerSuffix_spec (o : Option (List Char)) (r : List Char)
    (h : o.bind tickerSuffix = some r) : isLetterRun15 r := by
  rcases Option.bind_eq_some.mp h with ⟨x, -, hx⟩
  exact tickerSuffix_spec x r hx

theorem analyzePatternAt_spec (cs r : List Char) (h : analyzePatternAt cs = some r) :
    isLetterRun15 r :=
  bind_tickerSuffix_spec _ r h

theorem questionOptTail_spec (cs r : List Char) (h : questionOptTail cs = some r) :
    isLetterRun15 r := by
  unfold questionOptTail at h
  split at h
  · exact bind_tickerSuffix_spec _ r (by rw [← h]; assumption)
  · split at h
    · exact bind_tickerSuffix_spec _ r (by rw [← h]; assumption)
    · split at h
      · exact bind_tickerSuffix_spec _ r (by rw [← h]; assumption)
      · exact tickerSuffix_spec _ r h

theorem questionPatternAt_spec (cs r : List Char) (h : questionPatternAt cs = some r) :
    isLetterRun15 r := by
  unfold questionPatternAt at h
  split at h
  · exact questionOptTail_spec _ r h
  · split at h
    · exact questionOptTail_spec _ r h
    · exact absurd h (by simp)

theorem infoPatternAt_spec (cs r : List Char) (h : infoPatternAt cs = some r) :
    isLetterRun15 r :=
  bind_tickerSuffix_spec _ r h

theorem searchCapture_ex (pAt : List Char → Option (List Char)) (cs r : List Char)
    (h : searchCapture pAt cs = some r) : ∃ cs2, pAt cs2 = some r := by
  induction cs with
  | nil => exact ⟨[], h⟩
  | cons c t ih =>
    rw [searchCapture] at h
    split at h
    · exact ⟨c :: t, by rw [← h]; assumption⟩
    · exact ih h

theorem findallTickerTokensGo_spec (fuel : Nat) (prevW : Bool) (cs : List Char) :
    ∀ r ∈ findallTickerTokensGo fuel prevW cs, isUpperRun15 r := by
  induction fuel, prevW, cs using findallTickerTokensGo.induct with
  | case1 _ _ => simp [findallTickerTokensGo]
  | case2 _ _ => simp [findallTickerTokensGo]
  | case3 fuel rest run hcond ih =>
    have hc2 : (decide (1 ≤ (rest.takeWhile Char.isUpper).length) &&
        decide ((rest.takeWhile Char.isUpper).length ≤ 5) &&
        nextNonWord (rest.drop (rest.takeWhile Char.isUpper).length)) = true := hcond
    have ih2 : ∀ r ∈ findallTickerTokensGo fuel true
        (rest.drop (rest.takeWhile Char.isUpper).length), isUpperRun15 r := ih
    rw [findallTickerTokensGo.eq_def]
    simp only []
    rw [if_pos trivial, if_pos hc2]
    intro r hr
    rcases List.mem_cons.mp hr with rfl | hr2
    · simp only [Bool.and_eq_true, decide_eq_true_eq] at hc2
      refine ⟨?_, by omega, fun d hd => List.mem_takeWhile_imp hd⟩
      intro hnil
      rw [hnil] at hc2
      simp at hc2
    · exact ih2 r hr2
  | case4 fuel rest run hcond ih =>
    have hc2 : ¬((decide (1 ≤ (rest.takeWhile Char.isUpper).length) &&
        decide ((rest.takeWhile Char.isUpper).length ≤ 5) &&
        nextNonWord (rest.drop (rest.takeWhile Char.isUpper).length)) = true) := hcond
    rw [findallTickerTokensGo.eq_def]
    simp only []
    rw [if_pos trivial, if_neg hc2]
    exact ih
  | case5 fuel prevW rest hprev ih =>
    have hp : prevW = false := by simpa using hprev
    subst hp
    rw [findallTickerTokensGo.eq_def]
    simp only []
    rw [if_pos trivial, if_neg Bool.false_ne_true]
    exact ih
  | case6 fuel c rest hdol hup ih =>
    rw [findallTickerTokensGo.eq_def]
    simp only []
    rw [if_neg hdol, if_pos hup, if_pos trivial]
    exact ih
  | case7 fuel prevW c rest hdol hup hprev run hcond ih =>
    have hp : prevW = false := by simpa using hprev
    subst hp
    have hc2 : (decide (((c :: rest).takeWhile Char.isUpper).length ≤ 5) &&
        nextNonWord ((c :: rest).drop ((c :: rest).takeWhile Char.isUpper).length)) = true := hcond
    have ih2 : ∀ r ∈ findallTickerTokensGo fuel true
        ((c :: rest).drop ((c :: rest).takeWhile Char.isUpper).length), isUpperRun15 r := ih
    rw [findallTickerTokensGo.eq_def]
    simp only []
    rw [if_neg hdol, if_pos hup, if_neg Bool.false_ne_true, if_pos hc2]
    intro r hr
    rcases List.mem_cons.mp hr with rfl | hr2
    · simp only [Bool.and_eq_true, decide_eq_true_eq] at hc2
      refine ⟨?_, by omega, fun d hd => List.mem_takeWhile_imp hd⟩
      intro hnil
      have hmem : c ∈ (c :: rest).takeWhile Char.isUpper := by
        rw [List.takeWhile_cons, if_pos hup]
        simp
      rw [hnil] at hmem
      cases hmem
    · exact ih2 r hr2
  | case8 fuel prevW c rest hdol hup hprev run hcond ih =>
    have hp : prevW = false := by simpa using hprev
    subst hp
    have hc2 : ¬((decide (((c :: rest).takeWhile Char.isUpper).length ≤ 5) &&
        nextNonWord ((c :: rest).drop ((c :: rest).takeWhile Char.isUpper).length)) = true) := hcond
    rw [findallTickerTokensGo.eq_def]
    simp only []
    rw [if_neg hdol, if_pos hup, if_neg Bool.false_ne_true, if_neg hc2]
    exact ih
  | case9 fuel prevW c rest hdol hup ih =>
    rw [findallTickerTokensGo.eq_def]
    simp only []
    rw [if_neg hdol, if_neg hup]
    exact ih

theorem findallTickerTokens_spec (prevW : Bool) (cs : List Char) :
    ∀ r ∈ findallTickerTokens prevW cs, isUpperRun15 r :=
  findallTickerTokensGo_spec cs.length prevW cs

theorem pickFirstValidTicker_spec (ms : List (List Char)) (t : String)
    (h : pickFirstValidTicker ms = some t) : is_valid_ticker t = true := by
  induction ms with
  | nil => exact absurd h (by simp [pickFirstValidTicker])
  | cons m rest ih =>
    rw [pickFirstValidTicker] at h
    split at h
    · rename_i hcond
      simp only [Bool.and_eq_true] at hcond
      obtain rfl : _ = t := Option.some.inj h
      exact hcond.2
    · exact ih h

theorem directRunMatch_spec (cs2 r : List Char) (h : directRunMatch cs2 = some r) :
    isUpperRun15 r := by
  unfold directRunMatch at h
  split at h
  · rename_i hcond
    obtain rfl : _ = r := Option.some.inj h
    simp only [Bool.and_eq_true, decide_eq_true_eq, List.all_eq_true] at hcond
    exact ⟨by intro hnil; rw [hnil] at hcond; simp at hcond, hcond.1.2, hcond.2⟩
  · exact absurd h (by simp)

theorem directTickerMatch_spec (cs r : List Char) (h : directTickerMatch cs = some r) :
    isUpperRun15 r := by
  unfold directTickerMatch at h
  exact directRunMatch_spec _ r h

/-- Upper-casing any 1-5 character capture of the IGNORECASE class
gives a token of ticker shape. -/
theorem capture_shape (r : List Char) (h : isLetterRun15 r) :
    tickerShape (r.map pyToUpper) := by
  obtain ⟨hne, hlen, hcls⟩ := h
  refine ⟨?_, ?_, ?_⟩
  · simp only [ne_eq, List.map_eq_nil_iff]
    exact hne
  · simpa using hlen
  · intro c hc
    rcases List.mem_map.mp hc with ⟨d, hd, rfl⟩
    exact pyToUpper_shape d (hcls d hd)

theorem isUpperRun15_isLetterRun15 (r : List Char) (h : isUpperRun15 r) :
    isLetterRun15 r :=
  ⟨h.1, h.2.1, fun c hc => isUpper_isAZci c (h.2.2 c hc)⟩

theorem pickFirstValidTicker_ex (ms : List (List Char)) (t : String)
    (h : pickFirstValidTicker ms = some t) :
    ∃ m ∈ ms, t = String.mk (m.map pyToUpper) := by
  induction ms with
  | nil => exact absurd h (by simp [pickFirstValidTicker])
  | cons m rest ih =>
    rw [pickFirstValidTicker] at h
    split at h
    · obtain rfl : _ = t := Option.some.inj h
      exact ⟨m, by simp, rfl⟩
    · obtain ⟨m2, hm2, ht⟩ := ih h
      exact ⟨m2, by simp [hm2], ht⟩

/-- Every ticker extract_ticker_from_query returns has ticker shape. -/
theorem extract_output_shape (q t : String)
    (h : extract_ticker_from_query q = some t) : tickerShape t.data := by
  unfold extract_ticker_from_query at h
  split at h
  · exact absurd h (by simp)
  · split at h
    · rename_i r heq
      obtain rfl : _ = t := Option.some.inj h
      exact capture_shape r
        (isUpperRun15_isLetterRun15 r (directTickerMatch_spec _ r heq))
    · split at h
      · rename_i r heq
        obtain rfl : _ = t := Option.some.inj h
        obtain ⟨cs2, h2⟩ := searchCapture_ex _ _ r heq
        exact capture_shape r (analyzePatternAt_spec cs2 r h2)
      · split at h
        · rename_i r heq
          obtain rfl : _ = t := Option.some.inj h
          obtain ⟨cs2, h2⟩ := searchCapture_ex _ _ r heq
          exact capture_shape r (questionPatternAt_spec cs2 r h2)
        · split at h
          · rename_i r heq
            obtain rfl : _ = t := Option.some.inj h
            obtain ⟨cs2, h2⟩ := searchCapture_ex _ _ r heq
            exact capture_shape r (infoPatternAt_spec cs2 r h2)
          · obtain ⟨m, hm, ht⟩ := pickFirstValidTicker_ex _ t h
            subst ht
            exact capture_shape m
              (isUpperRun15_isLetterRun15 m (findallTickerTokens_spec false _ m hm))

/-- An extracted all-ASCII-uppercase token passes is_valid_ticker. -/
theorem extract_all_upper_valid (q t : String)
    (h : extract_ticker_from_query q = some t)
    (hup : ∀ c ∈ t.data, c.isUpper = true) : is_valid_ticker t = true := by
  obtain ⟨hne, hlen, -⟩ := extract_output_shape q t h
  obtain ⟨d⟩ := t
  exact upper_run_is_valid_ticker d hne hlen hup

/-- Claim C10: every non-None value of extract_ticker_from_query is a
1-5 character token whose characters are ASCII uppercase letters or one
of the two IGNORECASE fold extras U+0130 and U+212A that str.upper
leaves unchanged ([A-Z] under re.IGNORECASE also matches U+0130, U+0131,
U+017F and U+212A; upper-casing sends U+0131 and U+017F back to ASCII I
and S).  When the token is all ASCII it passes is_valid_ticker, as the
claim states; but when it contains U+0130 or U+212A it fails
is_valid_ticker and parse_query_intent returns valid = false together
with the non-null ticker and the Invalid-ticker-symbol error, so the
branch the claim calls unreachable is in fact reachable. -/
theorem extracted_ticker_shape_and_invalid_branch :
    (∀ q t, extract_ticker_from_query q = some t → tickerShape t.data) ∧
    (∀ q t, extract_ticker_from_query q = some t →
      (∀ c ∈ t.data, c.isUpper = true) → is_valid_ticker t = true) ∧
    (∀ q t, extract_ticker_from_query q = some t →
      ¬(∀ c ∈ t.data, c.isUpper = true) →
      is_valid_ticker t = false ∧
        parse_query_intent q =
          { ticker := some t, intent := "analyze", valid := false,
            error := some ("Invalid ticker symbol: " ++ t) }) := by
  refine ⟨extract_output_shape, extract_all_upper_valid, ?_⟩
  intro q t h hnup
  have hval : is_valid_ticker t = false := by
    obtain ⟨hne, hlen, hcls⟩ := extract_output_shape q t h
    obtain ⟨d⟩ := t
    exact shape_nonupper_not_valid d hne hlen hcls hnup
  refine ⟨hval, ?_⟩
  have hq : q ≠ "" := by
    intro hq0
    rw [hq0, extract_ticker_from_query, if_pos rfl] at h
    exact Option.noConfusion h
  rw [parse_query_intent, if_neg hq, h]
  show (if (!is_valid_ticker t) = true then
      ({ ticker := some t, intent := "analyze", valid := false,
         error := some ("Invalid ticker symbol: " ++ t) } : QueryIntent)
    else { ticker := some t, intent := "analyze", valid := true, error := none }) =
    { ticker := some t, intent := "analyze", valid := false,
      error := some ("Invalid ticker symbol: " ++ t) }
  rw [hval]
  rfl

/-- Claim C10 counterexample: under re.IGNORECASE the class [A-Z] also
matches the Kelvin sign U+212A, which str.upper leaves unchanged, so
the query consisting of the word analyze followed by U+212A extracts a
one-character non-ASCII ticker that fails is_valid_ticker, and
parse_query_intent returns valid = false with a non-null ticker and the
Invalid-ticker-symbol error - the branch the claim deems unreachable. -/
theorem extract_kelvin_reaches_invalid_branch :
    extract_ticker_from_query "analyze K" = some (String.mk [Char.ofNat 8490]) ∧
    is_valid_ticker (String.mk [Char.ofNat 8490]) = false ∧
    parse_query_intent "analyze K" =
      { ticker := some (String.mk [Char.ofNat 8490]), intent := "analyze", valid := false,
        error := some ("Invalid ticker symbol: " ++ String.mk [Char.ofNat 8490]) } := by
  refine ⟨by decide, by decide, by decide⟩

/-- Witness for C10 at concrete inputs: the all-ASCII query exercises
the valid path and the Kelvin-sign query the invalid-ticker branch. -/
theorem extracted_ticker_shape_and_invalid_branch_witness :
    tickerShape (String.data "AAPL") ∧
    is_valid_ticker "AAPL" = true ∧
    (is_valid_ticker (String.mk [Char.ofNat 8490]) = false ∧
      parse_query_intent "analyze K" =
        { ticker := some (String.mk [Char.ofNat 8490]), intent := "analyze", valid := false,
          error := some ("Invalid ticker symbol: " ++ String.mk [Char.ofNat 8490]) }) :=
  ⟨extracted_ticker_shape_and_invalid_branch.1 "analyze AAPL" "AAPL" (by decide),
   extracted_ticker_shape_and_invalid_branch.2.1 "analyze AAPL" "AAPL" (by decide) (by decide),
   extracted_ticker_shape_and_invalid_branch.2.2 "analyze K" (String.mk [Char.ofNat 8490])
     (by decide) (by decide)⟩

/-- Claim C6 counterexample: the direct pattern of
extract_ticker_from_query is compiled without IGNORECASE, so the
lower-case token "aapl" does not yield "AAPL" as the claim states: no
pattern matches it and the result is None. -/
theorem extract_lowercase_aapl_is_none :
    extract_ticker_from_query "aapl" = none ∧
    extract_ticker_from_query "aapl" ≠ some "AAPL" := by
  constructor
  · decide
  · decide

/-- Claim C6 as amended: for every input that is entirely a single 1-5
letter UPPERCASE token, optionally prefixed with a dollar sign,
extract_ticker_from_query returns that token (its own upper-casing);
lower-case tokens are not matched by the direct pattern. -/
theorem extract_direct_uppercase_token (s : String) (hne : s.data ≠ [])
    (hlen : s.data.length ≤ 5) (hup : ∀ c ∈ s.data, c.isUpper = true) :
    extract_ticker_from_query s = some s ∧
    extract_ticker_from_query (String.mk ('$' :: s.data)) = some s := by
  obtain ⟨sd⟩ := s
  have hne' : sd ≠ [] := hne
  have hlen' : sd.length ≤ 5 := hlen
  have hup' : ∀ c ∈ sd, c.isUpper = true := hup
  have hmap : sd.map pyToUpper = sd :=
    map_pyToUpper_id_of_shape _ (fun d hd => Or.inl (hup' d hd))
  have hstrip : pyStrip sd = sd :=
    pyStrip_eq_self _ (fun c hc => isUpper_not_space c (hup' c hc))
  have hrun : directRunMatch sd = some sd := by
    unfold directRunMatch
    rw [if_pos]
    simp only [Bool.and_eq_true, decide_eq_true_eq, List.all_eq_true]
    exact ⟨⟨List.length_pos.mpr hne', hlen'⟩, hup'⟩
  obtain ⟨c, rest, rfl⟩ : ∃ c rest, sd = c :: rest := by
    cases sd with
    | nil => exact absurd rfl hne'
    | cons c r => exact ⟨c, r, rfl⟩
  constructor
  · have hsne : String.mk (c :: rest) ≠ "" := by
      simp [String.ext_iff]
    rw [extract_ticker_from_query, if_neg hsne]
    have hdata : (String.mk (c :: rest)).data = c :: rest := rfl
    have hd : directTickerMatch (pyStrip (String.mk (c :: rest)).data) = some (c :: rest) := by
      rw [hdata, hstrip]
      unfold directTickerMatch
      simp only []
      rw [if_neg (isUpper_ne_dollar c (hup' c (by simp)))]
      exact hrun
    rw [hd]
    show some (String.mk (List.map pyToUpper (c :: rest))) = some (String.mk (c :: rest))
    rw [hmap]
  · have hsne : String.mk ('$' :: c :: rest) ≠ "" := by
      simp [String.ext_iff]
    rw [extract_ticker_from_query, if_neg hsne]
    have hdata : (String.mk ('$' :: c :: rest)).data = '$' :: c :: rest := rfl
    have hstrip2 : pyStrip ('$' :: c :: rest) = '$' :: c :: rest := by
      apply pyStrip_eq_self
      intro d hd
      rcases List.mem_cons.mp hd with rfl | hd2
      · decide
      · exact isUpper_not_space d (hup' d hd2)
    have hd : directTickerMatch (pyStrip (String.mk ('$' :: c :: rest)).data) =
        some (c :: rest) := by
      rw [hdata, hstrip2]
      unfold directTickerMatch
      simp only []
      rw [if_pos trivial]
      exact hrun
    rw [hd]
    show some (String.mk (List.map pyToUpper (c :: rest))) = some (String.mk (c :: rest))
    rw [hmap]

/-- Witness for the amended C6 at the concrete token of the claim. -/
theorem extract_direct_uppercase_token_witness :
    ("AAPL".data ≠ [] ∧ "AAPL".data.length ≤ 5 ∧ ∀ c ∈ "AAPL".data, c.isUpper = true) ∧
    (extract_ticker_from_query "AAPL" = some "AAPL" ∧
      extract_ticker_from_query (String.mk ('$' :: "AAPL".data)) = some "AAPL") :=
  ⟨⟨by decide, by decide, by decide⟩,
   extract_direct_uppercase_token "AAPL" (by decide) (by decide) (by decide)⟩

/-- Claim C5 counterexample: parse_agent_mention is not idempotent in the
claimed sense: after extracting the mention of "@a @b hi" the remainder
"@b hi" itself parses to a further mention. -/
theorem parse_agent_mention_not_idempotent :
    (parse_agent_mention (parse_agent_mention "@a @b hi").2).1 = some "b" := by decide

/-- Claim C5 as amended: the two concrete mappings of the claim hold,
and re-parsing is a fixed point on the no-mention side (when no mention
is found the remainder is the original message, so parsing it again
again finds none); after a successful extraction, however, the
remainder may itself contain a further mention. -/
theorem parse_agent_mention_examples_and_fixedpoint :
    parse_agent_mention "@financial-advisor Should I buy AAPL?" =
      (some "financial-advisor", "Should I buy AAPL?") ∧
    parse_agent_mention "What about AAPL?" = (none, "What about AAPL?") ∧
    ∀ m : String, (parse_agent_mention m).1 = none →
      (parse_agent_mention ((parse_agent_mention m).2)).1 = none := by
  refine ⟨by decide, by decide, ?_⟩
  intro m h
  have h2 : parse_agent_mention m = (none, m) := by
    unfold parse_agent_mention at h ⊢
    cases hm : agentMentionMatch (pyStrip m.data) with
    | none => rfl
    | some p =>
      rw [hm] at h
      obtain ⟨a, b⟩ := p
      simp at h
  rw [h2]
  show (parse_agent_mention m).1 = none
  rw [h2]

/-- Witness for the amended C5 at the no-mention example. -/
theorem parse_agent_mention_fixedpoint_witness :
    ((parse_agent_mention "What about AAPL?").1 = none) ∧
    (parse_agent_mention ((parse_agent_mention "What about AAPL?").2)).1 = none :=
  ⟨by decide,
   parse_agent_mention_examples_and_fixedpoint.2.2 "What about AAPL?" (by decide)⟩

/-- Claim C7: the codec round trip preserves the conversation id: for
every analysis carrying a recommendation, parsing the message built by
format_analysis_response yields that conversation id (the formatter
stores it under the "conversation_id" key and the parser reads exactly
that key back). -/
theorem format_parse_roundtrip_conversation_id
    (analysis : StockAnalysis) (cid : String) (pid : Option String) (aid : String)
    (_hrec : analysis.recommendation.isSome = true) :
    (parse_a2a_message (format_analysis_response analysis cid pid aid)).map
      ParsedA2AMessage.conversation_id = Except.ok (JVal.str cid) := by
  unfold format_analysis_response parse_a2a_message
  cases pid with
  | none =>
    simp [dictGet?, jgetD, List.find?, Except.map]
  | some p =>
    by_cases hp : p = ""
    · simp [hp, dictGet?, jgetD, List.find?, Except.map]
    · simp [hp, dictGet?, jgetD, List.find?, Except.map]

/-- Witness for C7 at a concrete analysis. -/
theorem format_parse_roundtrip_conversation_id_witness :
    (StockAnalysis.recommendation
        { ticker := "AAPL", company_name := "Apple Inc.", market_data := none,
          recommendation := some
            { recommendation_value := "buy", confidence_score := 85,
              key_factors := [], risk_assessment := "low", reasoning := "r" },
          summary := "" }).isSome = true ∧
    (parse_a2a_message (format_analysis_response
        { ticker := "AAPL", company_name := "Apple Inc.", market_data := none,
          recommendation := some
            { recommendation_value := "buy", confidence_score := 85,
              key_factors := [], risk_assessment := "low", reasoning := "r" },
          summary := "" } "conv-123" (some "msg-456") "nasdaq-stock-agent")).map
      ParsedA2AMessage.conversation_id = Except.ok (JVal.str "conv-123") :=
  ⟨rfl, format_parse_roundtrip_conversation_id _ "conv-123" (some "msg-456")
    "nasdaq-stock-agent" rfl⟩

/-! ## Helper lemmas: unfolding make_request one attempt at a time -/

theorem make_request_http (responses : Nat → RegResp) (mr : Nat) (rd : ℚ) (rc : Nat)
    (s : Nat) (body : JVal) (hresp : responses rc = RegResp.http s body) :
    make_request responses mr rd rc =
      if (decide (s = 200) || decide (s = 201)) = true then
        { result := some body, attempts := 1, delays := [] }
      else if 500 ≤ s ∧ rc < mr then
        { result := (make_request responses mr rd (rc + 1)).result,
          attempts := (make_request responses mr rd (rc + 1)).attempts + 1,
          delays := (rd * 2 ^ rc) :: (make_request responses mr rd (rc + 1)).delays }
      else { result := none, attempts := 1, delays := [] } := by
  rw [make_request.eq_def, hresp]
  rfl

theorem make_request_clientError (responses : Nat → RegResp) (mr : Nat) (rd : ℚ) (rc : Nat)
    (hresp : responses rc = RegResp.clientError) :
    make_request responses mr rd rc =
      if rc < mr then
        { result := (make_request responses mr rd (rc + 1)).result,
          attempts := (make_request responses mr rd (rc + 1)).attempts + 1,
          delays := (rd * 2 ^ rc) :: (make_request responses mr rd (rc + 1)).delays }
      else { result := none, attempts := 1, delays := [] } := by
  rw [make_request.eq_def, hresp]
  rfl

theorem make_request_timeoutError (responses : Nat → RegResp) (mr : Nat) (rd : ℚ) (rc : Nat)
    (hresp : responses rc = RegResp.timeoutError) :
    make_request responses mr rd rc =
      if rc < mr then
        { result := (make_request responses mr rd (rc + 1)).result,
          attempts := (make_request responses mr rd (rc + 1)).attempts + 1,
          delays := (rd * 2 ^ rc) :: (make_request responses mr rd (rc + 1)).delays }
      else { result := none, attempts := 1, delays := [] } := by
  rw [make_request.eq_def, hresp]
  rfl

theorem make_request_otherException (responses : Nat → RegResp) (mr : Nat) (rd : ℚ)
    (rc : Nat) (hresp : responses rc = RegResp.otherException) :
    make_request responses mr rd rc =
      { result := none, attempts := 1, delays := [] } := by
  rw [make_request.eq_def, hresp]

/-- When no attempt ever yields 200/201, _make_request ends with None. -/
theorem make_request_result_none (responses : Nat → RegResp) (mr : Nat) (rd : ℚ)
    (hno : ∀ k, noSuccess (responses k)) (rc : Nat) :
    (make_request responses mr rd rc).result = none := by
  induction rc using make_request.induct responses mr rd with
  | case1 x s body hresp hcond =>
    exact absurd (by simpa using hcond) (hno x s body hresp)
  | case2 x s body hresp hcond hretry ih =>
    rw [make_request_http responses mr rd x s body hresp, if_neg hcond, if_pos hretry]
    exact ih
  | case3 x s body hresp hcond hnretry =>
    rw [make_request_http responses mr rd x s body hresp, if_neg hcond, if_neg hnretry]
  | case4 x hresp hretry ih =>
    rw [make_request_clientError responses mr rd x hresp, if_pos hretry]
    exact ih
  | case5 x hresp hnretry =>
    rw [make_request_clientError responses mr rd x hresp, if_neg hnretry]
  | case6 x hresp hretry ih =>
    rw [make_request_timeoutError responses mr rd x hresp, if_pos hretry]
    exact ih
  | case7 x hresp hnretry =>
    rw [make_request_timeoutError responses mr rd x hresp, if_neg hnretry]
  | case8 x hresp =>
    rw [make_request_otherException responses mr rd x hresp]

/-- A non-None _make_request outcome can only come from a 200/201
answer, whose body it returns. -/
theorem make_request_result_some (responses : Nat → RegResp) (mr : Nat) (rd : ℚ)
    (rc : Nat) : ∀ b, (make_request responses mr rd rc).result = some b →
    ∃ k s, responses k = RegResp.http s b ∧ (s = 200 ∨ s = 201) := by
  induction rc using make_request.induct responses mr rd with
  | case1 x s body hresp hcond =>
    intro b h
    rw [make_request_http responses mr rd x s body hresp, if_pos hcond] at h
    obtain rfl : body = b := Option.some.inj h
    exact ⟨x, s, hresp, by simpa using hcond⟩
  | case2 x s body hresp hcond hretry ih =>
    intro b h
    rw [make_request_http responses mr rd x s body hresp, if_neg hcond, if_pos hretry] at h
    exact ih b h
  | case3 x s body hresp hcond hnretry =>
    intro b h
    rw [make_request_http responses mr rd x s body hresp, if_neg hcond, if_neg hnretry] at h
    exact absurd h (by simp)
  | case4 x hresp hretry ih =>
    intro b h
    rw [make_request_clientError responses mr rd x hresp, if_pos hretry] at h
    exact ih b h
  | case5 x hresp hnretry =>
    intro b h
    rw [make_request_clientError responses mr rd x hresp, if_neg hnretry] at h
    exact absurd h (by simp)
  | case6 x hresp hretry ih =>
    intro b h
    rw [make_request_timeoutError responses mr rd x hresp, if_pos hretry] at h
    exact ih b h
  | case7 x hresp hnretry =>
    intro b h
    rw [make_request_timeoutError responses mr rd x hresp, if_neg hnretry] at h
    exact absurd h (by simp)
  | case8 x hresp =>
    intro b h
    rw [make_request_otherException responses mr rd x hresp] at h
    exact absurd h (by simp)

/-- Claim C2 counterexample: a 2xx status other than 200/201 is treated
as a failure: against a registry answering HTTP 202 with a truthy body,
register_agent returns false and leaves the flag unset, although the
claim promises true for every 2xx. -/
theorem register_agent_202_returns_false :
    register_agent (fun _ => RegResp.http 202 (JVal.obj [("status", JVal.str "accepted")]))
      3 1 false = (false, false) := by
  unfold register_agent
  rw [make_request_http _ 3 1 0 202 _ rfl, if_neg (by decide), if_neg (by omega)]

/-- Claim C2 as amended: register_agent returns true and sets the
registered flag exactly when the registry answers status 200 or 201
with a truthy decoded JSON body; any other status (including other
2xx), a falsy 200/201 body, and every transport failure yield false
without raising, leaving the flag unchanged. -/
theorem register_agent_only_200_201 :
    (∀ (s : Nat) (b : JVal) (mr : Nat) (rd : ℚ) (old : Bool),
      (s = 200 ∨ s = 201) → truthy b = true →
      register_agent (fun _ => RegResp.http s b) mr rd old = (true, true)) ∧
    (∀ (s : Nat) (b : JVal) (mr : Nat) (rd : ℚ) (old : Bool),
      (s = 200 ∨ s = 201) → truthy b = false →
      register_agent (fun _ => RegResp.http s b) mr rd old = (false, old)) ∧
    (∀ (s : Nat) (b : JVal) (mr : Nat) (rd : ℚ) (old : Bool),
      ¬(s = 200 ∨ s = 201) →
      register_agent (fun _ => RegResp.http s b) mr rd old = (false, old)) ∧
    (∀ (mr : Nat) (rd : ℚ) (old : Bool),
      register_agent (fun _ => RegResp.clientError) mr rd old = (false, old) ∧
      register_agent (fun _ => RegResp.timeoutError) mr rd old = (false, old)) := by
  refine ⟨?_, ?_, ?_, ?_⟩
  · intro s b mr rd old hs htr
    have hc : (decide (s = 200) || decide (s = 201)) = true := by
      rcases hs with rfl | rfl <;> decide
    unfold register_agent
    rw [make_request_http _ mr rd 0 s b rfl, if_pos hc]
    show (if truthy b = true then ((true : Bool), (true : Bool)) else (false, old)) = (true, true)
    rw [htr, if_pos rfl]
  · intro s b mr rd old hs htr
    have hc : (decide (s = 200) || decide (s = 201)) = true := by
      rcases hs with rfl | rfl <;> decide
    unfold register_agent
    rw [make_request_http _ mr rd 0 s b rfl, if_pos hc]
    show (if truthy b = true then ((true : Bool), (true : Bool)) else (false, old)) = (false, old)
    rw [htr, if_neg Bool.false_ne_true]
  · intro s b mr rd old hs
    have hres : (make_request (fun _ => RegResp.http s b) mr rd 0).result = none :=
      make_request_result_none _ mr rd
        (fun _ s2 b2 heq => by
          obtain ⟨rfl, rfl⟩ : s = s2 ∧ b = b2 := by
            injection heq with h1 h2
            exact ⟨h1, h2⟩
          exact hs) 0
    unfold register_agent
    rw [hres]
  · intro mr rd old
    constructor
    · have hres : (make_request (fun _ => RegResp.clientError) mr rd 0).result = none :=
        make_request_result_none _ mr rd (fun _ s2 b2 heq => by cases heq) 0
      unfold register_agent
      rw [hres]
    · have hres : (make_request (fun _ => RegResp.timeoutError) mr rd 0).result = none :=
        make_request_result_none _ mr rd (fun _ s2 b2 heq => by cases heq) 0
      unfold register_agent
      rw [hres]

/-- Witness for the amended C2 at concrete outcomes. -/
theorem register_agent_only_200_201_witness :
    ((200 = 200 ∨ 200 = 201) ∧ truthy (JVal.obj [("ok", JVal.bool true)]) = true ∧
      register_agent (fun _ => RegResp.http 200 (JVal.obj [("ok", JVal.bool true)]))
        3 1 false = (true, true)) ∧
    (¬(404 = 200 ∨ 404 = 201) ∧
      register_agent (fun _ => RegResp.http 404 (JVal.obj [])) 3 1 false = (false, false)) :=
  ⟨⟨Or.inl rfl, by decide,
    register_agent_only_200_201.1 200 (JVal.obj [("ok", JVal.bool true)]) 3 1 false
      (Or.inl rfl) (by decide)⟩,
   ⟨by omega,
    register_agent_only_200_201.2.2.1 404 (JVal.obj []) 3 1 false (by omega)⟩⟩

/-- Claim C3: against a registry that answers HTTP 500 to every request,
_make_request with max_retries = 3 and retry_delay = 1 makes exactly 4
attempts with backoff delays 1s, 2s, 4s and yields None, so
register_agent returns false; a 4xx answer is never retried: exactly 1
attempt. -/
theorem register_retries_500_with_backoff :
    ∀ (b500 b400 : JVal) (old : Bool),
      (make_request (fun _ => RegResp.http 500 b500) 3 1 0).attempts = 4 ∧
      (make_request (fun _ => RegResp.http 500 b500) 3 1 0).delays = [1, 2, 4] ∧
      (make_request (fun _ => RegResp.http 500 b500) 3 1 0).result = none ∧
      register_agent (fun _ => RegResp.http 500 b500) 3 1 old = (false, old) ∧
      (make_request (fun _ => RegResp.http 400 b400) 3 1 0).attempts = 1 ∧
      register_agent (fun _ => RegResp.http 400 b400) 3 1 old = (false, old) := by
  intro b500 b400 old
  have e3 : make_request (fun _ => RegResp.http 500 b500) 3 1 3 =
      { result := none, attempts := 1, delays := [] } := by
    rw [make_request_http _ 3 1 3 500 b500 rfl, if_neg (by decide), if_neg (by omega)]
  have e2 : make_request (fun _ => RegResp.http 500 b500) 3 1 2 =
      { result := none, attempts := 2, delays := [4] } := by
    rw [make_request_http _ 3 1 2 500 b500 rfl, if_neg (by decide), if_pos (by omega), e3]
    norm_num
  have e1 : make_request (fun _ => RegResp.http 500 b500) 3 1 1 =
      { result := none, attempts := 3, delays := [2, 4] } := by
    rw [make_request_http _ 3 1 1 500 b500 rfl, if_neg (by decide), if_pos (by omega), e2]
    norm_num
  have e0 : make_request (fun _ => RegResp.http 500 b500) 3 1 0 =
      { result := none, attempts := 4, delays := [1, 2, 4] } := by
    rw [make_request_http _ 3 1 0 500 b500 rfl, if_neg (by decide), if_pos (by omega), e1]
    norm_num
  have f0 : make_request (fun _ => RegResp.http 400 b400) 3 1 0 =
      { result := none, attempts := 1, delays := [] } := by
    rw [make_request_http _ 3 1 0 400 b400 rfl, if_neg (by decide), if_neg (by omega)]
  refine ⟨by rw [e0], by rw [e0], by rw [e0], ?_, by rw [f0], ?_⟩
  · unfold register_agent
    rw [e0]
  · unfold register_agent
    rw [f0]

/-- Claim C4 counterexample: a register_agent call that fails does not
clear a previously set registered flag: starting registered, a failing
call returns false yet is_registered stays true, so the flag does not
equal the returned boolean. -/
theorem register_agent_failure_keeps_flag :
    register_agent (fun _ => RegResp.clientError) 0 1 true = (false, true) ∧
    is_registered (register_agent (fun _ => RegResp.clientError) 0 1 true).2 ≠
      (register_agent (fun _ => RegResp.clientError) 0 1 true).1 := by
  have h : register_agent (fun _ => RegResp.clientError) 0 1 true = (false, true) := by
    unfold register_agent
    rw [make_request_clientError _ 0 1 0 rfl, if_neg (by omega)]
  refine ⟨h, ?_⟩
  rw [h]
  decide

/-- Claim C4 as amended: after every completed register_agent call the
registered flag equals the disjunction of its previous value with the
returned boolean: success sets it, failure leaves it unchanged.  Only
from an initially unregistered client does is_registered equal the
returned boolean. -/
theorem register_agent_flag_or :
    ∀ (responses : Nat → RegResp) (mr : Nat) (rd : ℚ) (old : Bool),
      is_registered (register_agent responses mr rd old).2 =
        (old || (register_agent responses mr rd old).1) := by
  intro responses mr rd old
  unfold register_agent is_registered
  cases hres : (make_request responses mr rd 0).result with
  | none => simp
  | some b =>
    show (if truthy b = true then ((true : Bool), (true : Bool)) else (false, old)).2 =
      (old || (if truthy b = true then ((true : Bool), (true : Bool)) else (false, old)).1)
    cases htr : truthy b
    · rw [if_neg (by simp [htr])]
      simp
    · rw [if_pos (by simp [htr])]
      simp

/-- Claim C9: when the agent is registered and the DELETE of deregister
fails in any way that makes the request helper yield None (transport
error, timeout, non-200/201 status, unexpected exception), deregister
still returns True and clears the registered flag; its False branch is
reachable only when the registry answers 200 or 201 with a falsy JSON
body. -/
theorem deregister_true_on_failure_false_needs_falsy_200 :
    (∀ (responses : Nat → RegResp) (mr : Nat) (rd : ℚ),
      (make_request responses mr rd 0).result = none →
      deregister responses mr rd true = (true, false)) ∧
    (∀ (responses : Nat → RegResp) (mr : Nat) (rd : ℚ) (reg : Bool),
      (deregister responses mr rd reg).1 = false →
      reg = true ∧
        ∃ k s b, responses k = RegResp.http s b ∧ (s = 200 ∨ s = 201) ∧
          truthy b = false) := by
  constructor
  · intro responses mr rd hres
    unfold deregister
    rw [if_neg (by simp), hres]
  · intro responses mr rd reg h
    unfold deregister at h
    cases reg with
    | false =>
      rw [if_pos rfl] at h
      simp at h
    | true =>
      rw [if_neg (by simp)] at h
      refine ⟨rfl, ?_⟩
      cases hres : (make_request responses mr rd 0).result with
      | none =>
        rw [hres] at h
        simp at h
      | some b =>
        rw [hres] at h
        cases htr : truthy b with
        | true =>
          rw [show (match some b with
              | none => ((true : Bool), (false : Bool))
              | some b => if truthy b = true then (true, false) else (false, true)) =
              if truthy b = true then (true, false) else (false, true) from rfl,
            if_pos htr] at h
          simp at h
        | false =>
          obtain ⟨k, s, hk, hs⟩ := make_request_result_some responses mr rd 0 b hres
          exact ⟨k, s, b, hk, hs, htr⟩

/-- Witness for C9: a transport failure still deregisters, and a 200
with an empty JSON object body reaches the False branch. -/
theorem deregister_true_on_failure_witness :
    ((make_request (fun _ => RegResp.otherException) 3 1 0).result = none ∧
      deregister (fun _ => RegResp.otherException) 3 1 true = (true, false)) ∧
    ((deregister (fun _ => RegResp.http 200 (JVal.obj [])) 3 1 true).1 = false ∧
      (true = true ∧
        ∃ (_ : Nat) (s : Nat) (b : JVal), RegResp.http 200 (JVal.obj []) = RegResp.http s b ∧
          (s = 200 ∨ s = 201) ∧ truthy b = false)) := by
  have hnone : (make_request (fun _ => RegResp.otherException) 3 1 0).result = none := by
    rw [make_request_otherException _ 3 1 0 rfl]
  have hfirst : (deregister (fun _ => RegResp.http 200 (JVal.obj [])) 3 1 true).1 = false := by
    unfold deregister
    rw [if_neg (by simp), make_request_http _ 3 1 0 200 (JVal.obj []) rfl,
      if_pos (by decide)]
    rfl
  exact ⟨⟨hnone, deregister_true_on_failure_false_needs_falsy_200.1 _ 3 1 hnone⟩,
    ⟨hfirst, deregister_true_on_failure_false_needs_falsy_200.2
      (fun _ => RegResp.http 200 (JVal.obj [])) 3 1 true hfirst⟩⟩

/-- The try/except Exception around the local pipeline yields a dict for
every body outcome. -/
theorem except_tryCatch_ok (b : Except String Dict) (f : String → Dict) :
    ∃ d, tryCatch b (fun e => Except.ok (f e)) = Except.ok d := by
  cases b with
  | ok a => exact ⟨a, rfl⟩
  | error e => exact ⟨f e, rfl⟩

/-- Claim C1 counterexample: the @mention forwarding branch of
process_stock_query runs before the try block, so an exception there
propagates to the caller: when the forwarded agent answers HTTP 200
with a JSON object carrying an "error" key but no "message" key, the
read of response["message"] raises KeyError out of
process_stock_query. -/
theorem process_stock_query_mention_branch_raises :
    process_stock_query
      { registry_configured := true, lookup_result := some "http://advisor.example",
        post_outcome := PostOutcome.ok (some [("error", JVal.str "boom")]),
        fresh_conversation_id := "conv-fresh",
        analysis_outcome := Except.error "unused" }
      "nasdaq-stock-agent" 30 "@advisor Should I buy AAPL?" "conv-1" none
      = Except.error "KeyError: message" := by
  rfl

/-- Claim C1 as amended: for every query without an @mention the bridge
contract holds: any failure of the local pipeline is caught by the
try/except that starts after the mention branch and is converted to a
formatted error dict, so process_stock_query returns normally; an
exception raised inside the @mention forwarding branch, which executes
before that try block, propagates to the caller. -/
theorem process_stock_query_no_mention_total
    (env : BridgeEnv) (agent_id : String) (message_timeout : Nat)
    (query conversation_id : String) (parent_message_id : Option String)
    (h : (parse_agent_mention query).1 = none) :
    ∃ d, process_stock_query env agent_id message_timeout query conversation_id
      parent_message_id = Except.ok d := by
  rcases hp : parse_agent_mention query with ⟨t, r⟩
  rw [hp] at h
  simp only [] at h
  subst h
  have heq : process_stock_query env agent_id message_timeout query conversation_id
      parent_message_id =
      process_local_query env agent_id query conversation_id parent_message_id := by
    unfold process_stock_query
    rw [hp]
    rfl
  rw [heq]
  unfold process_local_query
  exact except_tryCatch_ok _ _

/-- Witness for the amended C1 at a mention-free query. -/
theorem process_stock_query_no_mention_total_witness :
    ((parse_agent_mention "analyze AAPL").1 = none) ∧
    ∃ d, process_stock_query
      { registry_configured := false, lookup_result := none,
        post_outcome := PostOutcome.timeout, fresh_conversation_id := "conv-fresh",
        analysis_outcome := Except.error "analysis blew up" }
      "nasdaq-stock-agent" 30 "analyze AAPL" "conv-2" none = Except.ok d :=
  ⟨by decide,
   process_stock_query_no_mention_total _ "nasdaq-stock-agent" 30 "analyze AAPL"
     "conv-2" none (by decide)⟩

/-- One scheduler step never changes the running flag. -/
theorem heartbeat_step_is_running (s : AdapterState) :
    (heartbeat_step s).is_running = s.is_running := by
  unfold heartbeat_step
  rcases s with ⟨running, pc, calls⟩
  cases pc with
  | top => cases running <;> rfl
  | sleeping n => cases n <;> rfl
  | done => rfl

/-- Once stopped, a step makes no update_status call. -/
theorem heartbeat_step_stopped_calls (s : AdapterState) (h : s.is_running = false) :
    (heartbeat_step s).update_status_calls = s.update_status_calls := by
  unfold heartbeat_step
  rcases s with ⟨running, pc, calls⟩
  cases pc with
  | top =>
    simp only at h
    rw [h]
    rfl
  | sleeping n => cases n <;> rfl
  | done => rfl

/-- Claim C8 counterexample: stop_async only flips the running flag; the
task handle was discarded and no cancel is issued, so a stop during a
just-started 30 unit sleep leaves the loop alive through the whole
sleep: 30 steps later it is still not done (it has merely counted the
sleep down), and it terminates only after the sleep has run out. -/
theorem heartbeat_sleep_not_cancelled :
    (heartbeat_run 30 (stop_async_effect
        { is_running := true, pc := HeartbeatPc.sleeping 30,
          update_status_calls := 1 })).pc ≠ HeartbeatPc.done ∧
    (heartbeat_run 31 (stop_async_effect
        { is_running := true, pc := HeartbeatPc.sleeping 30,
          update_status_calls := 1 })).pc = HeartbeatPc.top ∧
    (heartbeat_run 32 (stop_async_effect
        { is_running := true, pc := HeartbeatPc.sleeping 30,
          update_status_calls := 1 })).pc = HeartbeatPc.done := by
  decide

/-- Claim C8 as amended: the heartbeat loop observes the running flag at
the top of each iteration, so once stop_async has flipped it no further
update_status call is made; but the in-progress sleep is NOT cancelled:
from a stopped state with n sleep units left the loop reaches done only
after the sleep has elapsed, at n + 2 scheduler steps. -/
theorem heartbeat_stop_cooperative :
    (∀ (s : AdapterState) (n : Nat), s.is_running = false →
      (heartbeat_run n s).update_status_calls = s.update_status_calls) ∧
    (∀ (s : AdapterState) (n : Nat), s.is_running = false →
      s.pc = HeartbeatPc.sleeping n →
      (heartbeat_run (n + 2) s).pc = HeartbeatPc.done) := by
  constructor
  · intro s n
    induction n generalizing s with
    | zero => intro _; rfl
    | succ k ih =>
      intro h
      show (heartbeat_run k (heartbeat_step s)).update_status_calls = s.update_status_calls
      rw [ih (heartbeat_step s) (by rw [heartbeat_step_is_running]; exact h)]
      exact heartbeat_step_stopped_calls s h
  · intro s n
    induction n generalizing s with
    | zero =>
      intro hrun hpc
      show (heartbeat_step (heartbeat_step s)).pc = HeartbeatPc.done
      have h1 : heartbeat_step s = { s with pc := HeartbeatPc.top } := by
        unfold heartbeat_step
        rw [hpc]
      rw [h1]
      unfold heartbeat_step
      simp only [hrun]
      rfl
    | succ k ih =>
      intro hrun hpc
      show (heartbeat_run (k + 2) (heartbeat_step s)).pc = HeartbeatPc.done
      have h1 : heartbeat_step s = { s with pc := HeartbeatPc.sleeping k } := by
        unfold heartbeat_step
        rw [hpc]
      rw [h1]
      exact ih _ hrun rfl

/-- Witness for the amended C8 at a concrete stopped state. -/
theorem heartbeat_stop_cooperative_witness :
    (heartbeat_run 7 ⟨false, HeartbeatPc.sleeping 5, 2⟩).update_status_calls = 2 ∧
    (heartbeat_run 7 ⟨false, HeartbeatPc.sleeping 5, 2⟩).pc = HeartbeatPc.done :=
  ⟨heartbeat_stop_cooperative.1 _ 7 rfl, heartbeat_stop_cooperative.2 _ 5 rfl rfl⟩
